import Mathlib

/-!
# Verification of the qubit-energy-schemas tooling

Shallow embedding of the two scripts of the repository:

* `scripts/validate.py`   — schema loading, schema selection for a data file,
  per-file validation verdicts, batch validation and the aggregate exit code;
* `scripts/generate_types.py` — schema loading, JSON-schema → TypeScript type
  synthesis (`json_type_to_typescript`, `process_property`,
  `generate_interface_body`, `pascal_case`, `generate_definitions`).

JSON documents are modelled by the inductive `Json` (numbers as `Int`; the
schema corpus uses no floats in any position the claims touch).  Python
dictionaries are modelled as insertion-ordered association lists.  General
recursion over raw JSON trees is modelled with an explicit fuel parameter;
every theorem quantifies over the fuel, and the functions never exhaust the
fuel on inputs whose nesting depth is below it.

The structural conformance walk performed by the external `jsonschema`
library (`Draft202012Validator`) is not part of this repository; it is
modelled from the spec (§4.4): `iterErrors` collects every structural
violation in walk order (the library's `iter_errors`), `firstMismatch`
stops at the first one (the library's `validate`, which raises the first
error produced by the lazy `iter_errors` generator).
-/

/-- A JSON value.  Numbers are modelled as integers (see module comment). -/
inductive Json where
  | str (s : String)
  | num (n : Int)
  | bool (b : Bool)
  | null
  | arr (elems : List Json)
  | obj (fields : List (String × Json))

/-- `str.split(sep)` on character lists: Python's `str.split` with a one-char
separator, keeping empty pieces.  Always returns a non-empty list. -/
def splitChar (sep : Char) : List Char → List (List Char)
  | [] => [[]]
  | c :: rest =>
    match splitChar sep rest with
    | [] => [[c]]
    | g :: gs => if c = sep then [] :: g :: gs else (c :: g) :: gs

/-- Python's `needle in hay` substring test on character lists. -/
def containsSubList (needle : List Char) : List Char → Bool
  | [] => needle.isEmpty
  | c :: rest => needle.isPrefixOf (c :: rest) || containsSubList needle rest

/-- Python's `hay.replace(needle, repl)`: left-to-right, non-overlapping
replacement of every occurrence.  (Guarded against an empty needle, which
the scripts never pass.) -/
def replaceSub (needle repl : List Char) (hay : List Char) : List Char :=
  match hay with
  | [] => []
  | c :: rest =>
    if h : needle ≠ [] ∧ needle.isPrefixOf (c :: rest) then
      repl ++ replaceSub needle repl ((c :: rest).drop needle.length)
    else
      c :: replaceSub needle repl rest
termination_by hay.length
decreasing_by
  · simp only [List.length_drop, List.length_cons]
    have : needle.length ≠ 0 := by
      intro hz
      exact h.1 (List.eq_nil_of_length_eq_zero hz)
    omega
  · simp

/-- Python's `str.title()` character walk (ASCII): a letter following a
non-letter is uppercased, a letter following a letter is lowercased, every
other character is kept and resets the word boundary.  The flag records
whether the previous character was cased. -/
def pyTitleAux : Bool → List Char → List Char
  | _, [] => []
  | prevCased, c :: cs =>
    if c.isAlpha then
      (if prevCased then c.toLower else c.toUpper) :: pyTitleAux true cs
    else
      c :: pyTitleAux false cs

/-- Pack a character list back into a string. -/
def listToStr (cs : List Char) : String := ⟨cs⟩

/-- `TypeScriptGenerator.pascal_case` (generate_types.py:135-138):
`''.join(x.title() for x in snake_str.split('_'))`.  Note the split is on
`'_'` only. -/
def pascal_case (s : String) : String :=
  listToStr (((splitChar '_' s.data).map (pyTitleAux false)).flatten)

/-- `pathlib.Path(name).stem`: the file name with its last `.`-suffix
removed (dot-less names are returned unchanged; leading-dot special cases
do not occur in the repository). -/
def pyStem (name : String) : String :=
  let parts := splitChar '.' name.data
  if parts.length ≤ 1 then name
  else listToStr (List.intercalate ['.'] parts.dropLast)

/-- Python `dict` access on a JSON value: `j[k]` / `k in j` for objects. -/
def pyLookup (j : Json) (k : String) : Option Json :=
  match j with
  | .obj kvs => List.lookup k kvs
  | _ => none

/-- View a JSON value as a Python dict (association list); non-objects give
the empty dict (the scripts only reach this with objects). -/
def pyDict (j : Json) : List (String × Json) :=
  match j with
  | .obj kvs => kvs
  | _ => []

/-- Python iteration `for v in j`: list elements, object keys, string
characters.  Iterating a number/bool/None raises `TypeError` in Python;
the scripts never do, and the model returns `[]` there. -/
def pyIter (j : Json) : List Json :=
  match j with
  | .arr xs => xs
  | .obj kvs => kvs.map (fun kv => Json.str kv.1)
  | .str s => s.data.map (fun c => Json.str (listToStr [c]))
  | _ => []

/-- The keys of a JSON object (Python `dict.items()` key column). -/
def pyKeys (j : Json) : List String :=
  match j with
  | .obj kvs => kvs.map (fun kv => kv.1)
  | _ => []

/-- Strings drawn from a JSON array, e.g. a schema's `required` list
(`x in required` can only be true for string members when `x` is a
string, so non-string members are dropped). -/
def pyStrList (j : Json) : List String :=
  match j with
  | .arr xs => xs.filterMap (fun v => match v with | .str s => some s | _ => none)
  | _ => []

mutual

/-- Python `str(v)` / f-string rendering of a JSON value (used by the
generator's `f'"{v}"'` for enum members).  Strings render as themselves,
scalars as Python literals; containers use `repr` of their members. -/
def pyStr : Nat → Json → String
  | _, .str s => s
  | _, .num n => toString n
  | _, .bool b => if b then "True" else "False"
  | _, .null => "None"
  | 0, _ => ""
  | fuel+1, .arr xs =>
      "[" ++ String.intercalate ", " (xs.map (pyRepr fuel)) ++ "]"
  | fuel+1, .obj kvs =>
      "\x7b" ++ String.intercalate ", "
        (kvs.map (fun kv => "\x27" ++ kv.1 ++ "\x27: " ++ pyRepr fuel kv.2)) ++ "\x7d"

/-- Python `repr(v)` of a JSON value (strings single-quoted; escape
sequences are not modelled, no script output depends on them). -/
def pyRepr : Nat → Json → String
  | _, .str s => "\x27" ++ s ++ "\x27"
  | fuel, v => pyStr fuel v

end

mutual

/-- `TypeScriptGenerator.json_type_to_typescript` (generate_types.py:44-95).
`json_type` is the raw value of the schema's `type` keyword, `schema` the
enclosing schema dict.  Python's `if schema:` truthiness test coincides
with the association-list lookups returning `none` on the empty dict, so
it is not modelled separately. -/
def json_type_to_typescript : Nat → Json → List (String × Json) → String
  | 0, _, _ => "any"
  | fuel+1, jt, schema =>
    match jt with
    | .arr ts =>
        String.intercalate " | " (ts.map (fun t => json_type_to_typescript fuel t schema))
    | .str "string" =>
        (match List.lookup "format" schema with
         | some (.str "date-time") => "string"
         | some (.str "date") => "string"
         | some (.str "email") => "string"
         | some (.str "uri") => "string"
         | some (.str "ipv4") => "string"
         | some (.str "ipv6") => "string"
         | _ =>
           match List.lookup "enum" schema with
           | some ev =>
               String.intercalate " | "
                 ((pyIter ev).map (fun v => "\"" ++ pyStr fuel v ++ "\""))
           | none => "string")
    | .str "number" => "number"
    | .str "integer" => "number"
    | .str "boolean" => "boolean"
    | .str "null" => "null"
    | .str "array" =>
        (match List.lookup "items" schema with
         | some items => process_property fuel "item" (pyDict items) ++ "[]"
         | none => "any[]")
    | .str "object" =>
        (match List.lookup "properties" schema with
         | some props =>
             generate_interface_body fuel (pyDict props)
               (pyStrList ((List.lookup "required" schema).getD (.arr [])))
         | none => "Record<string, any>")
    | _ => "any"

/-- `TypeScriptGenerator.process_property` (generate_types.py:97-133):
`$ref` projection, `oneOf` unions, then the declared `type`.  A non-string
`$ref` value would raise `TypeError` in Python and cannot occur in a
schema corpus; the model returns `"any"` there. -/
def process_property : Nat → String → List (String × Json) → String
  | 0, _, _ => "any"
  | fuel+1, name, prop =>
    match List.lookup "$ref" prop with
    | some (.str refPath) =>
        if containsSubList "#/$defs/".data refPath.data then
          pascal_case (listToStr ((splitChar '/' refPath.data).getLastD []))
        else if containsSubList ".json#".data refPath.data then
          pascal_case (listToStr
            (replaceSub ".json".data [] ((splitChar '/' refPath.data).getLastD [])))
        else "any"
    | some _ => "any"
    | none =>
      match List.lookup "oneOf" prop with
      | some oneOfVal =>
          String.intercalate " | "
            ((pyIter oneOfVal).map (fun opt => process_property fuel name (pyDict opt)))
      | none =>
        match List.lookup "type" prop with
        | some t => json_type_to_typescript fuel t prop
        | none => "any"

/-- `TypeScriptGenerator.generate_interface_body` (generate_types.py:140-168). -/
def generate_interface_body : Nat → List (String × Json) → List String → String
  | 0, _, _ => ""
  | fuel+1, properties, required =>
    let lines :=
      ["\x7b"] ++
      (properties.flatMap (fun pk =>
        let optional := if required.contains pk.1 then "" else "?"
        let tsType := process_property fuel pk.1 (pyDict pk.2)
        (match pyLookup pk.2 "description" with
         | some d => ["  /** " ++ pyStr fuel d ++ " */"]
         | none => []) ++
        ["  " ++ pk.1 ++ optional ++ ": " ++ tsType ++ ";"])) ++
      ["\x7d"]
    String.intercalate "\n" lines

end

/-- One named type emitted by `generate_definitions`; `fromIdPatterns`
marks the type aliases produced by the special `id_patterns` branch
(which bypasses the `generated_types` deduplication set). -/
structure EmitItem where
  name : String
  fromIdPatterns : Bool
deriving DecidableEq

/-- `TypeScriptGenerator.generate_definitions` (generate_types.py:170-217),
projected to the sequence of named types it emits.  `generated` is the
`self.generated_types` set (the caller starts it empty); a definition whose
pascal-cased name is already in the set is skipped, otherwise the name is
recorded and the definition is emitted if it is the `id_patterns` group
(one alias per entry), carries `properties` (an interface) or carries
`type` (a type alias); a definition with none of these emits nothing. -/
def generate_definitions_emits : List String → List (String × Json) → List EmitItem
  | _, [] => []
  | generated, (defName, defSchema) :: rest =>
    let interfaceName := pascal_case defName
    if generated.contains interfaceName then
      generate_definitions_emits generated rest
    else
      let generated' := interfaceName :: generated
      if defName = "id_patterns" then
        (pyKeys defSchema).map (fun idType => ⟨pascal_case idType, true⟩) ++
          generate_definitions_emits generated' rest
      else if (pyLookup defSchema "properties").isSome then
        ⟨interfaceName, false⟩ :: generate_definitions_emits generated' rest
      else if (pyLookup defSchema "type").isSome then
        ⟨interfaceName, false⟩ :: generate_definitions_emits generated' rest
      else
        generate_definitions_emits generated' rest

/-! ## Validator (`scripts/validate.py`) -/

/-- Python `s.endswith('s')` (validate.py:78). -/
def endsWithS (s : String) : Bool :=
  match s.data.getLast? with
  | some c => c = 's'
  | none => false

/-- Python `s[:-1]` (validate.py:79). -/
def dropLastChar (s : String) : String := ⟨s.data.dropLast⟩

/-- `SchemaValidator.get_schema_for_file` (validate.py:60-87): exact stem
match against the loaded schemas; otherwise, for a stem ending in `s`, the
singular form only; for any other stem, the plural form only.  Generic in
the stored value (the script stores raw schema dicts). -/
def get_schema_for_file {α : Type} (schemas : List (String × α)) (file_name : String) :
    Option α :=
  let file_stem := pyStem file_name
  match List.lookup file_stem schemas with
  | some s => some s
  | none =>
    if endsWithS file_stem then
      match List.lookup (dropLastChar file_stem) schemas with
      | some s => some s
      | none => none
    else
      match List.lookup (file_stem ++ "s") schemas with
      | some s => some s
      | none => none

/-- Modelled from the claim's words (C1): try the exact stem, then the
singular form obtained by stripping a trailing `s`, and then the plural
form obtained by appending `s`, in that order. -/
def claimed_selection {α : Type} (schemas : List (String × α)) (file_name : String) :
    Option α :=
  let file_stem := pyStem file_name
  match List.lookup file_stem schemas with
  | some s => some s
  | none =>
    match (if endsWithS file_stem
           then List.lookup (dropLastChar file_stem) schemas
           else none) with
    | some s => some s
    | none => List.lookup (file_stem ++ "s") schemas

/-- A literal value inside a schema `enum` (spec §3: `EnumLiteral` holds
literal values). -/
inductive Lit where
  | lstr (s : String)
  | lnum (n : Int)
  | lbool (b : Bool)
  | lnull
deriving DecidableEq

/-- Does a data value equal an enum literal? -/
def litMatches (l : Lit) (d : Json) : Bool :=
  match l, d with
  | .lstr s, .str t => s == t
  | .lnum n, .num m => n == m
  | .lbool a, .bool b => a == b
  | .lnull, .null => true
  | _, _ => false

/-- Modelled from the spec (§3, §9): the tagged-variant schema node the
Validator walks.  The raw schema dicts handed to the external `jsonschema`
library are classified into this closed variant set. -/
inductive SchemaNode where
  | prim (kind : String)
  | enumLit (values : List Lit)
  | arrayOf (elem : SchemaNode)
  | objectOf (fields : List (String × SchemaNode × Bool))
  | union (members : List SchemaNode)
  | anyType

/-- One step of a field path: a property name or an array index. -/
inductive PathStep where
  | field (name : String)
  | index (i : Nat)
deriving DecidableEq

/-- Python `str(p)` on a path entry. -/
def stepString (p : PathStep) : String :=
  match p with
  | .field name => name
  | .index i => toString i

/-- A structural violation: the field path from the document root plus a
human-readable message. -/
structure VError where
  path : List PathStep
  message : String
deriving DecidableEq

/-- Type-kind compatibility for primitive schema kinds (floats are not
modelled, so `number` and `integer` both accept `num`). -/
def primOk (kind : String) (d : Json) : Bool :=
  match kind, d with
  | "string", .str _ => true
  | "number", .num _ => true
  | "integer", .num _ => true
  | "boolean", .bool _ => true
  | "null", .null => true
  | _, _ => false

/-- Modelled from the spec (§4.4): boolean structural conformance of a data
value to a schema node — type-kind compatibility, enum membership,
required-field presence, recursive array/object conformance (undeclared
properties permitted), union first-match.  Depth is fuel-bounded (§4.2's
bounded resolution depth). -/
def conforms : Nat → SchemaNode → Json → Bool
  | 0, _, _ => false
  | fuel+1, s, d =>
    match s with
    | .prim k => primOk k d
    | .enumLit vs => vs.any (fun v => litMatches v d)
    | .arrayOf e =>
      (match d with
       | .arr xs => xs.all (fun x => conforms fuel e x)
       | _ => false)
    | .objectOf fields =>
      (match d with
       | .obj kvs => fields.all (fun fld =>
           match List.lookup fld.1 kvs with
           | some v => conforms fuel fld.2.1 v
           | none => !fld.2.2)
       | _ => false)
    | .union ms => ms.any (fun m => conforms fuel m d)
    | .anyType => true

/-- Modelled from the spec (§4.4) and the external library's `iter_errors`:
every structural violation of the document against the schema, in walk
order (declared field order, then array index order).  A required-field
violation is reported at the parent object's path (spec §8). -/
def iterErrors : Nat → List PathStep → SchemaNode → Json → List VError
  | 0, path, _, _ => [⟨path, "schema resolution depth exceeded"⟩]
  | fuel+1, path, s, d =>
    match s with
    | .prim k =>
        if primOk k d then [] else [⟨path, "value is not of type " ++ k⟩]
    | .enumLit vs =>
        if vs.any (fun v => litMatches v d) then []
        else [⟨path, "value is not one of the enumerated values"⟩]
    | .arrayOf e =>
      (match d with
       | .arr xs =>
           xs.enum.flatMap (fun ix => iterErrors fuel (path ++ [.index ix.1]) e ix.2)
       | _ => [⟨path, "value is not of type array"⟩])
    | .objectOf fields =>
      (match d with
       | .obj kvs =>
           fields.flatMap (fun fld =>
             match List.lookup fld.1 kvs with
             | some v => iterErrors fuel (path ++ [.field fld.1]) fld.2.1 v
             | none =>
               if fld.2.2 then [⟨path, fld.1 ++ " is a required property"⟩] else [])
       | _ => [⟨path, "value is not of type object"⟩])
    | .union ms =>
        if ms.any (fun m => conforms fuel m d) then []
        else [⟨path, "value is not valid under any of the given schemas"⟩]
    | .anyType => []

/-- The first structural mismatch in walk order, or `none`: the external
library's `validate`, which raises the first error produced by the lazy
`iter_errors` generator (fail-fast, modelled from spec §4.4). -/
def firstMismatch : Nat → List PathStep → SchemaNode → Json → Option VError
  | 0, path, _, _ => some ⟨path, "schema resolution depth exceeded"⟩
  | fuel+1, path, s, d =>
    match s with
    | .prim k =>
        if primOk k d then none else some ⟨path, "value is not of type " ++ k⟩
    | .enumLit vs =>
        if vs.any (fun v => litMatches v d) then none
        else some ⟨path, "value is not one of the enumerated values"⟩
    | .arrayOf e =>
      (match d with
       | .arr xs =>
           xs.enum.findSome? (fun ix => firstMismatch fuel (path ++ [.index ix.1]) e ix.2)
       | _ => some ⟨path, "value is not of type array"⟩)
    | .objectOf fields =>
      (match d with
       | .obj kvs =>
           fields.findSome? (fun fld =>
             match List.lookup fld.1 kvs with
             | some v => firstMismatch fuel (path ++ [.field fld.1]) fld.2.1 v
             | none =>
               if fld.2.2 then some ⟨path, fld.1 ++ " is a required property"⟩ else none)
       | _ => some ⟨path, "value is not of type object"⟩)
    | .union ms =>
        if ms.any (fun m => conforms fuel m d) then none
        else some ⟨path, "value is not valid under any of the given schemas"⟩
    | .anyType => none

/-- validate.py:150: `" -> ".join(str(p) for p in e.path) if e.path else "root"`. -/
def pathString (p : List PathStep) : String :=
  match p with
  | [] => "root"
  | steps => String.intercalate " -> " (steps.map stepString)

/-- A data file handed to the validator: its file name and the outcome of
`json.load` (`Except.error` carries the `JSONDecodeError` message). -/
structure DataFile where
  name : String
  content : Except String Json

/-- `SchemaValidator.validate_file` (validate.py:117-153): load the data
file, pick the schema by stem, validate, and wrap the outcome into a
single `(success, message)` verdict.  (The `SchemaError` branch has no
counterpart: schema nodes are well-formed by construction here.) -/
def validate_file (schemas : List (String × SchemaNode)) (fuel : Nat) (f : DataFile) :
    Bool × String :=
  match f.content with
  | .error e => (false, "Invalid JSON: " ++ e)
  | .ok data =>
    match get_schema_for_file schemas f.name with
    | none => (false, "No matching schema found for " ++ f.name)
    | some schema =>
      match firstMismatch fuel [] schema data with
      | none => (true, "Valid")
      | some err =>
          (false, "Validation error at " ++ pathString err.path ++ ": " ++ err.message)

/-- `SchemaValidator.validate_directory` (validate.py:155-176): one verdict
per JSON file of the (sorted) directory listing; no verdict aborts the
rest. -/
def validate_directory (schemas : List (String × SchemaNode)) (fuel : Nat)
    (files : List DataFile) : List (String × Bool × String) :=
  files.map (fun f => (f.name, validate_file schemas fuel f))

/-- `print_results` (validate.py:179-228), projected to its exit code:
`0` when no verdict failed (or there were no results), else `1`. -/
def print_results_exit (results : List (String × Bool × String)) : Nat :=
  if results.isEmpty then 0
  else if (results.filter (fun r => !r.2.1)).length = 0 then 0 else 1

/-! ## Schema loading (both scripts) -/

/-- A schema file as found by `glob("*.json")`: its file name and the
outcome of `json.load`. -/
structure RawSchemaFile where
  name : String
  parsed : Except String Json

/-- A failure while building the schema store.  `malformed` records which
file name the surfaced error carries, if any, plus the decode message. -/
inductive LoadError where
  | notFound (message : String)
  | malformed (file : Option String) (detail : String)
deriving DecidableEq

/-- The loading loop of `SchemaValidator.load_schemas` (validate.py:46-58):
on a `json.JSONDecodeError` the script prints an error naming the file and
calls `sys.exit(1)`, so no store survives; otherwise the schema is stored
under the file stem. -/
def load_loop_validate : List RawSchemaFile → Except LoadError (List (String × Json))
  | [] => .ok []
  | f :: rest =>
    match f.parsed with
    | .error e => .error (.malformed (some f.name) e)
    | .ok j =>
      match load_loop_validate rest with
      | .error err => .error err
      | .ok store => .ok ((pyStem f.name, j) :: store)

/-- `SchemaValidator.load_schemas` (validate.py:39-58): an empty listing
raises `FileNotFoundError`, then the loading loop runs. -/
def load_schemas_validate (files : List RawSchemaFile) :
    Except LoadError (List (String × Json)) :=
  if files.isEmpty then
    .error (.notFound "No schema files found in the schema directory")
  else load_loop_validate files

/-- The loading loop of `TypeScriptGenerator.load_schemas`
(generate_types.py:34-42): a `json.JSONDecodeError` propagates uncaught,
so the surfaced error does not name the offending file. -/
def load_loop_generate : List RawSchemaFile → Except LoadError (List (String × Json))
  | [] => .ok []
  | f :: rest =>
    match f.parsed with
    | .error e => .error (.malformed none e)
    | .ok j =>
      match load_loop_generate rest with
      | .error err => .error err
      | .ok store => .ok ((pyStem f.name, j) :: store)

/-- `TypeScriptGenerator.load_schemas` (generate_types.py:34-42): no check
for an empty listing — the loop simply runs (over nothing, if need be). -/
def load_schemas_generate (files : List RawSchemaFile) :
    Except LoadError (List (String × Json)) :=
  load_loop_generate files

/-- validate.py:278-280 followed by `load_schemas`: `main` exits when the
schema directory does not exist, before loading. -/
def validate_main_load (dirExists : Bool) (files : List RawSchemaFile) :
    Except LoadError (List (String × Json)) :=
  if dirExists then load_schemas_validate files
  else .error (.notFound "Schema directory not found")

/-- generate_types.py:360-362 followed by `load_schemas`: `main` exits when
the schema directory does not exist, before loading. -/
def generate_main_load (dirExists : Bool) (files : List RawSchemaFile) :
    Except LoadError (List (String × Json)) :=
  if dirExists then load_schemas_generate files
  else .error (.notFound "Schema directory not found")

/-! ## Claim-side models -/

/-- Capitalize one name segment: uppercase its first character. -/
def capSeg : List Char → List Char
  | [] => []
  | c :: cs => c.toUpper :: cs

/-- Modelled from the claim's words (C9): split the name on both `'_'` and
`'-'` and capitalize each segment. -/
def claimed_pascal_case (s : String) : String :=
  listToStr ((((splitChar '_' s.data).map (splitChar '-')).flatten.map capSeg).flatten)

/-! ## Helper lemmas on the string primitives -/

theorem splitChar_ne_nil (sep : Char) (l : List Char) : splitChar sep l ≠ [] := by
  cases l with
  | nil => simp [splitChar]
  | cons c rest =>
    simp only [splitChar]
    split
    · simp
    · split <;> simp

theorem splitChar_not_mem {sep : Char} :
    ∀ {l : List Char}, sep ∉ l → splitChar sep l = [l] := by
  intro l
  induction l with
  | nil => intro _; rfl
  | cons c rest ih =>
    intro h
    have hc : c ≠ sep := fun hc => h (hc ▸ List.mem_cons_self c rest)
    have hrest : sep ∉ rest := fun hm => h (List.mem_cons_of_mem c hm)
    simp only [splitChar, ih hrest]
    simp [hc]

theorem splitChar_append_sep {sep : Char} :
    ∀ {a b : List Char}, sep ∉ a →
      splitChar sep (a ++ sep :: b) = a :: splitChar sep b := by
  intro a b
  induction a with
  | nil =>
    intro _
    simp only [List.nil_append, splitChar]
    cases hg : splitChar sep b with
    | nil => exact absurd hg (splitChar_ne_nil sep b)
    | cons g gs => simp
  | cons x a ih =>
    intro h
    have hx : x ≠ sep := fun hc => h (hc ▸ List.mem_cons_self x a)
    have ha : sep ∉ a := fun hm => h (List.mem_cons_of_mem x hm)
    simp only [List.cons_append, splitChar, List.append_eq]
    rw [ih ha]
    simp [hx]

theorem pyTitleAux_true_id :
    ∀ {l : List Char}, (∀ c ∈ l, c.isAlpha = true ∧ c.toLower = c) →
      pyTitleAux true l = l := by
  intro l
  induction l with
  | nil => intro _; rfl
  | cons c cs ih =>
    intro h
    have hc := h c (List.mem_cons_self c cs)
    simp only [pyTitleAux, hc.1, if_pos, if_true, hc.2]
    exact congrArg _ (ih (fun x hx => h x (List.mem_cons_of_mem c hx)))

theorem pyTitleAux_true_hyphen :
    ∀ {l b : List Char}, (∀ c ∈ l, c.isAlpha = true ∧ c.toLower = c) →
      pyTitleAux true (l ++ '-' :: b) = l ++ '-' :: pyTitleAux false b := by
  intro l b
  induction l with
  | nil =>
    intro _
    have hdash : ('-').isAlpha = false := by decide
    simp [pyTitleAux, hdash]
  | cons c cs ih =>
    intro h
    have hc := h c (List.mem_cons_self c cs)
    simp only [List.cons_append, pyTitleAux, hc.1, if_true, hc.2]
    exact congrArg _ (ih (fun x hx => h x (List.mem_cons_of_mem c hx)))

theorem pyTitleAux_false_cap {l : List Char} (hne : l ≠ [])
    (h : ∀ c ∈ l, c.isAlpha = true ∧ c.toLower = c) :
    pyTitleAux false l = capSeg l := by
  cases l with
  | nil => exact absurd rfl hne
  | cons c cs =>
    have hc := h c (List.mem_cons_self c cs)
    simp only [pyTitleAux, hc.1, if_true, capSeg]
    exact congrArg _ (pyTitleAux_true_id (fun x hx => h x (List.mem_cons_of_mem c hx)))

/-- C9 (amended): `pascal_case` splits on `'_'` only and title-cases each
component; a `'-'` is not a separator — it survives into the derived name
(title-casing still capitalizes the letter that follows it).  For
lowercase alphabetic segments `a`, `b`: `a_b ↦ AB` capitalized-and-joined,
but `a-b ↦ A-B`, not `AB`. -/
theorem c9_theorem (a b : List Char) (ha : a ≠ []) (hb : b ≠ [])
    (hA : ∀ c ∈ a, c.isAlpha = true ∧ c.toLower = c)
    (hB : ∀ c ∈ b, c.isAlpha = true ∧ c.toLower = c) :
    pascal_case (listToStr (a ++ '_' :: b)) = listToStr (capSeg a ++ capSeg b) ∧
    pascal_case (listToStr (a ++ '-' :: b)) = listToStr (capSeg a ++ '-' :: capSeg b) := by
  have hu_a : '_' ∉ a := fun hm => absurd (hA '_' hm).1 (by decide)
  have hu_b : '_' ∉ b := fun hm => absurd (hB '_' hm).1 (by decide)
  constructor
  · show listToStr (((splitChar '_' (a ++ '_' :: b)).map (pyTitleAux false)).flatten) = _
    rw [splitChar_append_sep hu_a, splitChar_not_mem hu_b]
    simp only [List.map, List.flatten]
    rw [pyTitleAux_false_cap ha hA, pyTitleAux_false_cap hb hB]
    simp [listToStr]
  · have hmem : '_' ∉ a ++ '-' :: b := by
      intro hm
      rcases List.mem_append.mp hm with h1 | h2
      · exact hu_a h1
      · rcases List.mem_cons.mp h2 with h3 | h4
        · exact absurd h3 (by decide)
        · exact hu_b h4
    show listToStr (((splitChar '_' (a ++ '-' :: b)).map (pyTitleAux false)).flatten) = _
    rw [splitChar_not_mem hmem]
    simp only [List.map, List.flatten]
    cases a with
    | nil => exact absurd rfl ha
    | cons c cs =>
      have hc := hA c (List.mem_cons_self c cs)
      simp only [List.cons_append, List.append_eq, pyTitleAux, hc.1, if_true, hc.2]
      rw [pyTitleAux_true_hyphen (fun x hx => hA x (List.mem_cons_of_mem c hx))]
      rw [pyTitleAux_false_cap hb hB]
      simp [listToStr, capSeg]

/-- C9 witness: at `site` / `id`, `pascal_case` agrees with the amended
statement for both separators. -/
theorem c9_witness :
    pascal_case (listToStr (['s','i','t','e'] ++ '_' :: ['i','d'])) =
      listToStr (capSeg ['s','i','t','e'] ++ capSeg ['i','d']) ∧
    pascal_case (listToStr (['s','i','t','e'] ++ '-' :: ['i','d'])) =
      listToStr (capSeg ['s','i','t','e'] ++ '-' :: capSeg ['i','d']) :=
  c9_theorem ['s','i','t','e'] ['i','d'] (by decide) (by decide) (by decide) (by decide)

/-- C9 counterexample: on the kebab-case name `site-id` the code produces
`Site-Id`, while splitting on both separators would produce `SiteId`. -/
theorem c9_counterexample :
    pascal_case "site-id" = "Site-Id" ∧ claimed_pascal_case "site-id" = "SiteId" ∧
    pascal_case "site-id" ≠ claimed_pascal_case "site-id" := by
  refine ⟨by decide, by decide, ?_⟩
  decide

/-! ## C1: schema selection policy -/

/-- C1 counterexample: with a schema store holding only `sitess`, the data
file `sites.json` (stem `sites`, ending in `s`) gets a no-matching-schema
verdict, although the claimed third probe — the plural `sitess` — is
present in the store. -/
theorem c1_counterexample :
    get_schema_for_file [("sitess", SchemaNode.anyType)] "sites.json" = none ∧
    claimed_selection [("sitess", SchemaNode.anyType)] "sites.json" =
      some SchemaNode.anyType ∧
    validate_file [("sitess", SchemaNode.anyType)] 1 ⟨"sites.json", Except.ok Json.null⟩ =
      (false, "No matching schema found for sites.json") :=
  ⟨rfl, rfl, rfl⟩

/-- C1 (amended): schema selection tries the exact stem; when that misses,
a stem ending in `s` is probed only as its singular (trailing `s`
stripped), and any other stem only as its plural (`s` appended) — the
singular and plural probes are never both tried.  The claimed
exact→singular→plural order coincides with the code exactly when the
store holds no schema named `stem + "s"` for an `s`-ending stem; and when
every applicable probe misses, `validate_file` reports the
no-matching-schema verdict for the file. -/
theorem c1_theorem (schemas : List (String × SchemaNode)) (f : DataFile)
    (data : Json) (fuel : Nat)
    (hplural : endsWithS (pyStem f.name) = true →
      List.lookup (pyStem f.name ++ "s") schemas = none) :
    get_schema_for_file schemas f.name = claimed_selection schemas f.name ∧
    (get_schema_for_file schemas f.name = none → f.content = Except.ok data →
      validate_file schemas fuel f = (false, "No matching schema found for " ++ f.name)) := by
  constructor
  · simp only [get_schema_for_file, claimed_selection]
    cases h1 : List.lookup (pyStem f.name) schemas with
    | some s => simp [h1]
    | none =>
      cases hs : endsWithS (pyStem f.name) with
      | true =>
        have hp := hplural hs
        cases h2 : List.lookup (dropLastChar (pyStem f.name)) schemas with
        | some s => simp [h1, hs, h2]
        | none => simp [h1, hs, h2, hp]
      | false =>
        cases h3 : List.lookup (pyStem f.name ++ "s") schemas with
        | some s => simp [h1, hs, h3]
        | none => simp [h1, hs, h3]
  · intro hnone hdata
    simp [validate_file, hdata, hnone]

/-- C1 witness: a store holding only `meters` and the file `things.json` —
the code and the claimed order agree (`hplural` holds) and the
no-matching-schema verdict is produced. -/
theorem c1_witness :
    get_schema_for_file [("meters", SchemaNode.anyType)] "things.json" =
      claimed_selection [("meters", SchemaNode.anyType)] "things.json" ∧
    validate_file [("meters", SchemaNode.anyType)] 1 ⟨"things.json", Except.ok Json.null⟩ =
      (false, "No matching schema found for things.json") := by
  have h := c1_theorem [("meters", SchemaNode.anyType)]
    ⟨"things.json", Except.ok Json.null⟩ Json.null 1 (fun _ => rfl)
  exact ⟨h.1, h.2 rfl rfl⟩

/-! ## C4: fail-fast single-verdict validation -/

theorem findSome?_eq_head?_flatMap {α β : Type _} (l : List α) (f : α → List β)
    (g : α → Option β) (h : ∀ a, g a = (f a).head?) :
    l.findSome? g = (l.flatMap f).head? := by
  induction l with
  | nil => rfl
  | cons a l ih =>
    rw [List.findSome?_cons, List.flatMap_cons, List.head?_append, ← ih, h a]
    cases hfa : (f a).head? <;> simp [Option.or]

theorem firstMismatch_eq_head :
    ∀ (fuel : Nat) (path : List PathStep) (s : SchemaNode) (d : Json),
      firstMismatch fuel path s d = (iterErrors fuel path s d).head? := by
  intro fuel
  induction fuel with
  | zero => intro path s d; rfl
  | succ fuel ih =>
    intro path s d
    cases s with
    | prim k =>
      simp only [firstMismatch, iterErrors]
      cases hpk : primOk k d <;> simp [hpk]
    | enumLit vs =>
      simp only [firstMismatch, iterErrors]
      cases hm : vs.any (fun v => litMatches v d) <;> simp [hm]
    | arrayOf e =>
      cases d <;> simp only [firstMismatch, iterErrors] <;> try rfl
      exact findSome?_eq_head?_flatMap _ _ _ (fun ix => ih _ _ _)
    | objectOf fields =>
      cases d <;> simp only [firstMismatch, iterErrors] <;> try rfl
      refine findSome?_eq_head?_flatMap _ _ _ (fun fld => ?_)
      cases hl : List.lookup fld.1 _ with
      | some v => simp [hl, ih]
      | none => cases hreq : fld.2.2 <;> simp [hl, hreq]
    | union ms =>
      simp only [firstMismatch, iterErrors]
      cases hm : ms.any (fun m => conforms fuel m d) <;> simp [hm]
    | anyType => rfl

/-- C4: for a data file that parses and has a matching schema, validation
produces exactly one verdict; when the full walk (`iterErrors`, the
aggregate the library's `iter_errors` would produce) finds no violation
the verdict is `Valid`, and otherwise the single verdict carries exactly
the first violation's field path and message — the remaining violations
never influence it (no aggregation). -/
theorem c4_theorem (fuel : Nat) (schemas : List (String × SchemaNode)) (f : DataFile)
    (data : Json) (s : SchemaNode)
    (h1 : f.content = Except.ok data)
    (h2 : get_schema_for_file schemas f.name = some s) :
    (iterErrors fuel [] s data = [] → validate_file schemas fuel f = (true, "Valid")) ∧
    (∀ e rest, iterErrors fuel [] s data = e :: rest →
      validate_file schemas fuel f =
        (false, "Validation error at " ++ pathString e.path ++ ": " ++ e.message)) := by
  have hfm := firstMismatch_eq_head fuel [] s data
  constructor
  · intro hnil
    rw [hnil] at hfm
    simp [validate_file, h1, h2, hfm]
  · intro e rest hcons
    rw [hcons] at hfm
    simp [validate_file, h1, h2, hfm]

/-- C4 witness: a string-typed schema against a numeric document — the
verdict is the single first mismatch, reported at the document root. -/
theorem c4_witness :
    validate_file [("sites", SchemaNode.prim "string")] 1
        ⟨"sites.json", Except.ok (Json.num 3)⟩ =
      (false, "Validation error at root: value is not of type string") := by
  have h := c4_theorem 1 [("sites", SchemaNode.prim "string")]
    ⟨"sites.json", Except.ok (Json.num 3)⟩ (Json.num 3) (SchemaNode.prim "string") rfl rfl
  exact h.2 ⟨[], "value is not of type string"⟩ [] rfl

/-! ## C8: batch isolation and aggregate exit status -/

theorem print_results_exit_eq_zero_iff (res : List (String × Bool × String)) :
    print_results_exit res = 0 ↔ res.all (fun r => r.2.1) = true := by
  simp only [print_results_exit]
  split
  · next hemp => simp [List.isEmpty_iff.mp hemp]
  · next hemp =>
    split
    · next hfil =>
      have hall : ∀ r ∈ res, r.2.1 = true := by
        intro r hr
        have hnr := List.filter_eq_nil_iff.mp (List.length_eq_zero.mp hfil) r hr
        simpa using hnr
      exact iff_of_true rfl (List.all_eq_true.mpr hall)
    · next hfil =>
      have hnall : ¬ res.all (fun r => r.2.1) = true := by
        intro hallt
        apply hfil
        rw [List.length_eq_zero, List.filter_eq_nil_iff]
        intro a ha
        simp [List.all_eq_true.mp hallt a ha]
      simp [hnall]

/-- C8: batch validation gives every file of the listing its own verdict
(the result list is index-aligned with the input and each entry is the
verdict of that file alone, so no file's failure aborts or alters
another's verdict), and the aggregate exit status is `0` exactly when
every verdict succeeded. -/
theorem c8_theorem (schemas : List (String × SchemaNode)) (fuel : Nat)
    (files : List DataFile) (i : Nat) (f : DataFile) (hf : files[i]? = some f) :
    (validate_directory schemas fuel files).length = files.length ∧
    (validate_directory schemas fuel files)[i]? =
      some (f.name, validate_file schemas fuel f) ∧
    (print_results_exit (validate_directory schemas fuel files) = 0 ↔
      (validate_directory schemas fuel files).all (fun r => r.2.1) = true) := by
  refine ⟨by simp [validate_directory], ?_, print_results_exit_eq_zero_iff _⟩
  simp [validate_directory, List.getElem?_map, hf]

/-- C8 witness: a malformed first file does not prevent the second file's
verdict; the aggregate exit status is nonzero because one verdict failed. -/
theorem c8_witness :
    (validate_directory [("sites", SchemaNode.prim "string")] 1
        [⟨"bad.json", Except.error "Expecting value"⟩,
         ⟨"sites.json", Except.ok (Json.str "hq")⟩]).length =
      ([⟨"bad.json", Except.error "Expecting value"⟩,
        ⟨"sites.json", Except.ok (Json.str "hq")⟩] : List DataFile).length ∧
    (validate_directory [("sites", SchemaNode.prim "string")] 1
        [⟨"bad.json", Except.error "Expecting value"⟩,
         ⟨"sites.json", Except.ok (Json.str "hq")⟩])[1]? =
      some ("sites.json",
        validate_file [("sites", SchemaNode.prim "string")] 1
          ⟨"sites.json", Except.ok (Json.str "hq")⟩) ∧
    (print_results_exit (validate_directory [("sites", SchemaNode.prim "string")] 1
        [⟨"bad.json", Except.error "Expecting value"⟩,
         ⟨"sites.json", Except.ok (Json.str "hq")⟩]) = 0 ↔
      (validate_directory [("sites", SchemaNode.prim "string")] 1
        [⟨"bad.json", Except.error "Expecting value"⟩,
         ⟨"sites.json", Except.ok (Json.str "hq")⟩]).all (fun r => r.2.1) = true) :=
  c8_theorem [("sites", SchemaNode.prim "string")] 1
    [⟨"bad.json", Except.error "Expecting value"⟩,
     ⟨"sites.json", Except.ok (Json.str "hq")⟩] 1
    ⟨"sites.json", Except.ok (Json.str "hq")⟩ rfl

/-! ## C10: integer/number erasure -/

/-- C10: type synthesis maps the declared types `integer` and `number` to
the identical target type `number`, for every enclosing schema — the
distinction is erased at the generated interface. -/
theorem c10_theorem (fuel : Nat) (schema : List (String × Json)) :
    json_type_to_typescript (fuel+1) (Json.str "integer") schema = "number" ∧
    json_type_to_typescript (fuel+1) (Json.str "number") schema = "number" :=
  ⟨rfl, rfl⟩

/-! ## C2: enum versus format priority -/

/-- C2 counterexample: a string node carrying both a known `format`
(`date`) and an `enum` synthesizes to the plain `string` primitive — the
format branch wins — not to the claimed enum-literal union. -/
theorem c2_counterexample :
    json_type_to_typescript 1 (Json.str "string")
        [("type", Json.str "string"), ("format", Json.str "date"),
         ("enum", Json.arr [Json.str "active", Json.str "inactive"])] = "string" ∧
    ("string" : String) ≠ "\"active\" | \"inactive\"" :=
  ⟨rfl, by decide⟩

/-- C2 (amended): a string node carrying an `enum` synthesizes to the
enum-literal union over the values in declared order (not sorted) —
provided no known `format` (date-time, date, email, uri, ipv4, ipv6) is
present; a known format takes priority over the enum and degrades the
node to the plain `string` primitive. -/
theorem c2_theorem (fuel : Nat) (schema : List (String × Json)) (vs : List Json)
    (hfmt : ∀ s : String, List.lookup "format" schema = some (Json.str s) →
      s ∉ (["date-time", "date", "email", "uri", "ipv4", "ipv6"] : List String))
    (henum : List.lookup "enum" schema = some (Json.arr vs)) :
    json_type_to_typescript (fuel+1) (Json.str "string") schema =
      String.intercalate " | " (vs.map (fun v => "\"" ++ pyStr fuel v ++ "\"")) := by
  simp only [json_type_to_typescript]
  split
  · next heq => exact absurd (hfmt _ heq) (by decide)
  · next heq => exact absurd (hfmt _ heq) (by decide)
  · next heq => exact absurd (hfmt _ heq) (by decide)
  · next heq => exact absurd (hfmt _ heq) (by decide)
  · next heq => exact absurd (hfmt _ heq) (by decide)
  · next heq => exact absurd (hfmt _ heq) (by decide)
  · rw [henum]; rfl

/-- C2 witness: an unknown format (`uuid`) does not block the enum union. -/
theorem c2_witness :
    json_type_to_typescript 1 (Json.str "string")
        [("type", Json.str "string"), ("format", Json.str "uuid"),
         ("enum", Json.arr [Json.str "a", Json.str "b"])] =
      String.intercalate " | "
        ([Json.str "a", Json.str "b"].map (fun v => "\"" ++ pyStr 0 v ++ "\"")) := by
  refine c2_theorem 0 _ [Json.str "a", Json.str "b"] ?_ rfl
  intro s hs
  have h1 : some (Json.str "uuid") = some (Json.str s) := hs
  have h2 : Json.str "uuid" = Json.str s := by injection h1
  have h3 : "uuid" = s := by injection h2
  rw [← h3]
  decide

/-! ## C3: unresolvable `$ref` handling -/

/-- C3 counterexample: a `$ref` matching neither recognized pointer form
resolves to the placeholder type `any` — no error is raised (the
projection's type has no failure channel at all). -/
theorem c3_counterexample :
    process_property 1 "site" [("$ref", Json.str "definitions.yaml#/site")] = "any" :=
  rfl

/-- C3 (amended): `$ref` projection never fails and never consults the
schema store: a pointer containing `#/$defs/` is projected to the
pascal-cased last `/`-segment, otherwise one containing `.json#` to the
pascal-cased last segment with `.json` removed, and any other pointer
resolves to the placeholder `any`; whether the referenced document or
fragment exists is never checked. -/
theorem c3_theorem (fuel : Nat) (name : String) (prop : List (String × Json)) (r : String)
    (h : List.lookup "$ref" prop = some (Json.str r)) :
    process_property (fuel+1) name prop =
      (if containsSubList "#/$defs/".data r.data then
        pascal_case (listToStr ((splitChar '/' r.data).getLastD []))
      else if containsSubList ".json#".data r.data then
        pascal_case (listToStr
          (replaceSub ".json".data [] ((splitChar '/' r.data).getLastD [])))
      else "any") := by
  simp only [process_property, h]

/-- C3 witness: a local `$defs` pointer projects to the pascal-cased
definition name. -/
theorem c3_witness :
    process_property 1 "p" [("$ref", Json.str "#/$defs/location")] = "Location" := by
  have h := c3_theorem 0 "p" [("$ref", Json.str "#/$defs/location")] "#/$defs/location" rfl
  rw [h]
  rfl

/-! ## C6: loading an absent or empty schema directory -/

/-- C6 counterexample: the generator's loader accepts an empty listing and
proceeds with an empty store, while the validator's loader raises; the
claim demands a not-found failure from both. -/
theorem c6_counterexample :
    load_schemas_generate [] = Except.ok [] ∧
    load_schemas_validate [] =
      Except.error (LoadError.notFound "No schema files found in the schema directory") :=
  ⟨rfl, rfl⟩

theorem load_loop_validate_no_notFound :
    ∀ (files : List RawSchemaFile) (m : String),
      load_loop_validate files ≠ Except.error (LoadError.notFound m) := by
  intro files
  induction files with
  | nil => intro m h; simp [load_loop_validate] at h
  | cons f rest ih =>
    intro m h
    simp only [load_loop_validate] at h
    cases hp : f.parsed with
    | error e => rw [hp] at h; simp at h
    | ok j =>
      rw [hp] at h
      cases hrec : load_loop_validate rest with
      | error err =>
        rw [hrec] at h
        have h2 : err = LoadError.notFound m := by
          injection h
        exact ih m (by rw [hrec, h2])
      | ok store => rw [hrec] at h; exact Except.noConfusion h

/-- C6 (amended): the validator's loading path fails with a not-found
error exactly when the schema directory is absent or its listing is
empty; the generator's loading path checks only directory existence — an
existing directory with no schema files loads as an empty store and the
generator proceeds. -/
theorem c6_theorem (dirExists : Bool) (files : List RawSchemaFile) :
    ((∃ m, validate_main_load dirExists files = Except.error (LoadError.notFound m)) ↔
      (dirExists = false ∨ files = [])) ∧
    generate_main_load true [] = Except.ok [] := by
  refine ⟨?_, rfl⟩
  cases dirExists with
  | false => simp [validate_main_load]
  | true =>
    cases files with
    | nil => simp [validate_main_load, load_schemas_validate]
    | cons f rest =>
      have hload : validate_main_load true (f :: rest) = load_loop_validate (f :: rest) := by
        simp [validate_main_load, load_schemas_validate]
      rw [hload]
      refine iff_of_false ?_ ?_
      · rintro ⟨m, hm⟩
        exact load_loop_validate_no_notFound (f :: rest) m hm
      · rintro (h | h) <;> simp at h

/-! ## C7: malformed schema files fail the whole load -/

theorem load_loop_validate_ok_parsed :
    ∀ {files : List RawSchemaFile} {store : List (String × Json)},
      load_loop_validate files = Except.ok store →
      ∀ f ∈ files, ∃ j, f.parsed = Except.ok j := by
  intro files
  induction files with
  | nil => intro store _ f hf; exact absurd hf (List.not_mem_nil f)
  | cons g rest ih =>
    intro store h f hf
    simp only [load_loop_validate] at h
    cases hp : g.parsed with
    | error e => rw [hp] at h; exact Except.noConfusion h
    | ok j =>
      rw [hp] at h
      cases hrec : load_loop_validate rest with
      | error err => rw [hrec] at h; exact Except.noConfusion h
      | ok store2 =>
        rcases List.mem_cons.mp hf with hfg | hfr
        · exact ⟨j, hfg ▸ hp⟩
        · exact ih hrec f hfr

theorem load_loop_generate_ok_parsed :
    ∀ {files : List RawSchemaFile} {store : List (String × Json)},
      load_loop_generate files = Except.ok store →
      ∀ f ∈ files, ∃ j, f.parsed = Except.ok j := by
  intro files
  induction files with
  | nil => intro store _ f hf; exact absurd hf (List.not_mem_nil f)
  | cons g rest ih =>
    intro store h f hf
    simp only [load_loop_generate] at h
    cases hp : g.parsed with
    | error e => rw [hp] at h; exact Except.noConfusion h
    | ok j =>
      rw [hp] at h
      cases hrec : load_loop_generate rest with
      | error err => rw [hrec] at h; exact Except.noConfusion h
      | ok store2 =>
        rcases List.mem_cons.mp hf with hfg | hfr
        · exact ⟨j, hfg ▸ hp⟩
        · exact ih hrec f hfr

theorem load_loop_validate_error_shape :
    ∀ {files : List RawSchemaFile} {err : LoadError},
      load_loop_validate files = Except.error err →
      ∃ g d, err = LoadError.malformed (some g.name) d ∧ g ∈ files ∧
        g.parsed = Except.error d := by
  intro files
  induction files with
  | nil => intro err h; exact Except.noConfusion h
  | cons g rest ih =>
    intro err h
    simp only [load_loop_validate] at h
    cases hp : g.parsed with
    | error e =>
      rw [hp] at h
      have h2 : LoadError.malformed (some g.name) e = err := by injection h
      exact ⟨g, e, h2.symm, List.mem_cons_self g rest, hp⟩
    | ok j =>
      rw [hp] at h
      cases hrec : load_loop_validate rest with
      | error err2 =>
        rw [hrec] at h
        have h2 : err2 = err := by injection h
        obtain ⟨g2, d, he, hm, hpd⟩ := ih hrec
        exact ⟨g2, d, h2 ▸ he, List.mem_cons_of_mem g hm, hpd⟩
      | ok store => rw [hrec] at h; exact Except.noConfusion h

/-- C7 (amended): one malformed schema file fails the whole load of both
scripts — neither produces a (partial) store, so no downstream work runs
on the remaining schemas; the validator's error names the offending file,
but the generator's propagated decode error carries no file name. -/
theorem c7_theorem (files : List RawSchemaFile) (f : RawSchemaFile) (e : String)
    (hmem : f ∈ files) (hbad : f.parsed = Except.error e) :
    (∀ store, load_schemas_validate files ≠ Except.ok store) ∧
    (∀ store, load_schemas_generate files ≠ Except.ok store) ∧
    (∃ g d, load_schemas_validate files =
        Except.error (LoadError.malformed (some g.name) d) ∧
      g ∈ files ∧ g.parsed = Except.error d) := by
  have hne : files ≠ [] := by
    intro hnil
    rw [hnil] at hmem
    exact absurd hmem (List.not_mem_nil f)
  have hloadv : load_schemas_validate files = load_loop_validate files := by
    simp only [load_schemas_validate]
    rw [if_neg (fun hc => hne (List.isEmpty_iff.mp hc))]
  refine ⟨?_, ?_, ?_⟩
  · intro store hok
    rw [hloadv] at hok
    obtain ⟨j, hj⟩ := load_loop_validate_ok_parsed hok f hmem
    rw [hbad] at hj
    exact Except.noConfusion hj
  · intro store hok
    obtain ⟨j, hj⟩ := load_loop_generate_ok_parsed hok f hmem
    rw [hbad] at hj
    exact Except.noConfusion hj
  · rw [hloadv]
    cases hres : load_loop_validate files with
    | ok store =>
      obtain ⟨j, hj⟩ := load_loop_validate_ok_parsed hres f hmem
      rw [hbad] at hj
      exact Except.noConfusion hj
    | error err =>
      obtain ⟨g, d, he, hm, hpd⟩ := load_loop_validate_error_shape hres
      exact ⟨g, d, by rw [he], hm, hpd⟩

/-- C7 witness: a well-formed first file followed by a malformed one —
both loads fail, and the validator's error names `asset.json`. -/
theorem c7_witness :
    (∀ store, load_schemas_validate
        [⟨"site.json", Except.ok (Json.obj [])⟩,
         ⟨"asset.json", Except.error "Expecting value"⟩] ≠ Except.ok store) ∧
    (∀ store, load_schemas_generate
        [⟨"site.json", Except.ok (Json.obj [])⟩,
         ⟨"asset.json", Except.error "Expecting value"⟩] ≠ Except.ok store) ∧
    (∃ g d, load_schemas_validate
        [⟨"site.json", Except.ok (Json.obj [])⟩,
         ⟨"asset.json", Except.error "Expecting value"⟩] =
        Except.error (LoadError.malformed (some g.name) d) ∧
      g ∈ ([⟨"site.json", Except.ok (Json.obj [])⟩,
            ⟨"asset.json", Except.error "Expecting value"⟩] : List RawSchemaFile) ∧
      g.parsed = Except.error d) :=
  c7_theorem
    [⟨"site.json", Except.ok (Json.obj [])⟩,
     ⟨"asset.json", Except.error "Expecting value"⟩]
    ⟨"asset.json", Except.error "Expecting value"⟩ "Expecting value"
    (by simp) rfl

/-- C7 counterexample: the generator's load error for a malformed schema
file carries no file name, unlike the validator's. -/
theorem c7_counterexample :
    load_schemas_generate
        [⟨"asset.json", Except.error "Expecting value: line 1 column 1 (char 0)"⟩] =
      Except.error (LoadError.malformed none "Expecting value: line 1 column 1 (char 0)") ∧
    load_schemas_validate
        [⟨"asset.json", Except.error "Expecting value: line 1 column 1 (char 0)"⟩] =
      Except.error (LoadError.malformed (some "asset.json")
        "Expecting value: line 1 column 1 (char 0)") :=
  ⟨rfl, rfl⟩

/-! ## C5: reference projection and single emission -/

theorem process_property_name_irrel :
    ∀ (fuel : Nat) (n₁ n₂ : String) (prop : List (String × Json)),
      process_property fuel n₁ prop = process_property fuel n₂ prop := by
  intro fuel
  induction fuel with
  | zero => intro n₁ n₂ prop; rfl
  | succ fuel ih =>
    intro n₁ n₂ prop
    simp only [process_property]
    split
    · rfl
    · rfl
    · split
      · exact congrArg _ (List.map_congr_left (fun a _ => ih n₁ n₂ (pyDict a)))
      · rfl

theorem gde_count_zero :
    ∀ (defs : List (String × Json)) (gen : List String) (N : String),
      (∀ d ∈ defs, d.1 ≠ "id_patterns") → N ∈ gen →
      ((generate_definitions_emits gen defs).map EmitItem.name).count N = 0 := by
  intro defs
  induction defs with
  | nil => intro gen N _ _; rfl
  | cons d rest ih =>
    intro gen N hnip hN
    obtain ⟨dn, ds⟩ := d
    have hdn : dn ≠ "id_patterns" := hnip (dn, ds) (List.mem_cons_self _ _)
    have htl : ∀ x ∈ rest, x.1 ≠ "id_patterns" :=
      fun x hx => hnip x (List.mem_cons_of_mem _ hx)
    simp only [generate_definitions_emits]
    by_cases hc : gen.contains (pascal_case dn) = true
    · rw [if_pos hc]
      exact ih gen N htl hN
    · rw [if_neg hc, if_neg hdn]
      have hNne : (pascal_case dn) ≠ N := by
        intro hEq
        exact hc (hEq ▸ List.elem_eq_true_of_mem hN)
      have hmem2 : N ∈ pascal_case dn :: gen := List.mem_cons_of_mem _ hN
      by_cases hp : (pyLookup ds "properties").isSome = true
      · rw [if_pos hp]
        rw [List.map_cons, List.count_cons, ih (pascal_case dn :: gen) N htl hmem2]
        simp [beq_eq_false_iff_ne.mpr hNne]
      · rw [if_neg hp]
        by_cases ht : (pyLookup ds "type").isSome = true
        · rw [if_pos ht]
          rw [List.map_cons, List.count_cons, ih (pascal_case dn :: gen) N htl hmem2]
          simp [beq_eq_false_iff_ne.mpr hNne]
        · rw [if_neg ht]
          exact ih (pascal_case dn :: gen) N htl hmem2

theorem gde_count_le_one :
    ∀ (defs : List (String × Json)) (gen : List String) (N : String),
      (∀ d ∈ defs, d.1 ≠ "id_patterns") →
      ((generate_definitions_emits gen defs).map EmitItem.name).count N ≤ 1 := by
  intro defs
  induction defs with
  | nil => intro gen N _; simp [generate_definitions_emits]
  | cons d rest ih =>
    intro gen N hnip
    obtain ⟨dn, ds⟩ := d
    have hdn : dn ≠ "id_patterns" := hnip (dn, ds) (List.mem_cons_self _ _)
    have htl : ∀ x ∈ rest, x.1 ≠ "id_patterns" :=
      fun x hx => hnip x (List.mem_cons_of_mem _ hx)
    simp only [generate_definitions_emits]
    by_cases hc : gen.contains (pascal_case dn) = true
    · rw [if_pos hc]
      exact ih gen N htl
    · rw [if_neg hc, if_neg hdn]
      have hemit :
          ((⟨pascal_case dn, false⟩ :: generate_definitions_emits (pascal_case dn :: gen) rest
            : List EmitItem).map EmitItem.name).count N ≤ 1 := by
        rw [List.map_cons, List.count_cons]
        by_cases heq : (pascal_case dn == N) = true
        · have hEq : pascal_case dn = N := eq_of_beq heq
          rw [gde_count_zero rest (pascal_case dn :: gen) N htl
            (hEq ▸ List.mem_cons_self _ _)]
          simp [heq]
        · rw [Bool.not_eq_true] at heq
          simp only [heq, if_false]
          exact le_trans (ih (pascal_case dn :: gen) N htl) (by omega)
      by_cases hp : (pyLookup ds "properties").isSome = true
      · rw [if_pos hp]; exact hemit
      · rw [if_neg hp]
        by_cases ht : (pyLookup ds "type").isSome = true
        · rw [if_pos ht]; exact hemit
        · rw [if_neg ht]
          exact ih (pascal_case dn :: gen) N htl

/-- C5 (amended): the projected type name of a `$ref` is a pure function
of the pointer string — in particular it does not depend on the property
under which the reference occurs, and both recognized spellings of a
pointer to definition `location` project to the same name `Location`;
and, over a definitions table that does not use the special `id_patterns`
group, `generate_definitions` emits any given derived name at most once
(the `generated_types` set deduplicates), independently of how many
referrers exist — but not necessarily exactly once: a definition carrying
neither `properties` nor `type` emits nothing. -/
theorem c5_theorem (fuel : Nat) (n₁ n₂ : String) (prop : List (String × Json))
    (defs : List (String × Json)) (N : String)
    (hnip : ∀ d ∈ defs, d.1 ≠ "id_patterns") :
    process_property fuel n₁ prop = process_property fuel n₂ prop ∧
    ((generate_definitions_emits [] defs).map EmitItem.name).count N ≤ 1 ∧
    process_property (fuel+1) n₁ [("$ref", Json.str "#/$defs/location")] = "Location" ∧
    process_property (fuel+1) n₁
      [("$ref", Json.str "_definitions.json#/$defs/location")] = "Location" :=
  ⟨process_property_name_irrel fuel n₁ n₂ prop,
   gde_count_le_one defs [] N hnip, rfl, rfl⟩

/-- C5 witness: two property positions, a two-definition table, and the
name `Location` — the projection agrees across positions and the name is
emitted at most once. -/
theorem c5_witness :
    process_property 0 "id" [] = process_property 0 "name" [] ∧
    ((generate_definitions_emits []
        [("location", Json.obj [("properties", Json.obj [])]),
         ("status", Json.obj [("type", Json.str "string")])]).map
      EmitItem.name).count "Location" ≤ 1 ∧
    process_property 1 "id" [("$ref", Json.str "#/$defs/location")] = "Location" ∧
    process_property 1 "id"
      [("$ref", Json.str "_definitions.json#/$defs/location")] = "Location" :=
  c5_theorem 0 "id" "name" []
    [("location", Json.obj [("properties", Json.obj [])]),
     ("status", Json.obj [("type", Json.str "string")])] "Location" (by decide)

/-- C5 counterexample: the definition `thing` carries only `oneOf`, so its
derived name `Thing` is never emitted, while a reference to it still
projects to `Thing` — the named type is emitted zero times, not exactly
once. -/
theorem c5_counterexample :
    process_property 1 "thing" [("$ref", Json.str "#/$defs/thing")] = "Thing" ∧
    ((generate_definitions_emits []
        [("thing", Json.obj [("oneOf", Json.arr [])])]).map
      EmitItem.name).count "Thing" = 0 :=
  ⟨rfl, rfl⟩
